import Mathlib

/-!
# Verification of the vibeants ant-foraging simulation core

Shallow embedding of the algorithmic core of `src/simulation.js`
(pheromone field, food sources, nest delivery, obstacle repulsion,
agent speed update) together with proofs of the specification's
testable properties.

Numeric conventions: JavaScript numbers are IEEE-754 doubles, every one
of which is a rational number, so state and positions are modelled over
`ℚ` (exact arithmetic, no rounding).  The only genuinely irrational
operations in the source are `Math.sqrt` / `Math.hypot` (magnitudes),
`Math.atan2`, `Math.cos` and `Math.sin`; the definitions that need them
are stated over `ℝ`.  Where the source compares two magnitudes (both
non-negative), the embedding compares their squares, which is
equivalent; each such place is noted in its doc comment.
-/

namespace VibeAnts

/-- Squared Euclidean distance between two points, over `ℚ`.
The source computes `a.subtract(b).magnitude()` (a square root) and only
ever compares it against a non-negative threshold `r`; for `0 ≤ r` the
comparison `√s < r` is equivalent to `s < r²`, which is how every use
below is phrased. -/
def distSq (a b : ℚ × ℚ) : ℚ :=
  (a.1 - b.1) ^ 2 + (a.2 - b.2) ^ 2

/-! ## PheromoneField (src/simulation.js lines 93-206)

The three grids are total functions `ℕ → ℕ → ℚ`; the physical cells are
the indices `x < gridW`, `y < gridH`, and every write in the source
lands on such an index (that is claim C1). -/

structure PheromoneField where
  cell : ℚ
  gridW : ℕ
  gridH : ℕ
  home : ℕ → ℕ → ℚ
  food : ℕ → ℕ → ℚ
  pathSuccess : ℕ → ℕ → ℚ

/-- Constructor (lines 94-101): `gridW = Math.max(1, Math.ceil(w / cell))`,
likewise for height; all cells start at 0. -/
def mkField (w h cell : ℚ) : PheromoneField where
  cell := cell
  gridW := max 1 (Int.ceil (w / cell)).toNat
  gridH := max 1 (Int.ceil (h / cell)).toNat
  home := fun _ _ => 0
  food := fun _ _ => 0
  pathSuccess := fun _ _ => 0

/-- `_clamp(i, max)` (lines 103-105): `Math.min(Math.max(i, 0), max - 1)`. -/
def clampIdx (i : ℤ) (mx : ℕ) : ℤ :=
  min (max i 0) ((mx : ℤ) - 1)

/-- `index(pos)` (lines 107-113): floor-divide by the cell size, then clamp
each coordinate into the grid. -/
def index (f : PheromoneField) (pos : ℚ × ℚ) : ℤ × ℤ :=
  (clampIdx ⌊pos.1 / f.cell⌋ f.gridW, clampIdx ⌊pos.2 / f.cell⌋ f.gridH)

/-- Point update of a grid function. -/
def updAt (g : ℕ → ℕ → ℚ) (i j : ℕ) (v : ℚ) : ℕ → ℕ → ℚ :=
  fun x y => if x = i ∧ y = j then v else g x y

/-- A small concrete field used to instantiate theorems with hypotheses. -/
def testField : PheromoneField where
  cell := 10
  gridW := 3
  gridH := 3
  home := fun _ _ => 0
  food := fun _ _ => 0
  pathSuccess := fun _ _ => 0

/-- C1: `index` always lands inside the grid, for every position,
including negative coordinates and coordinates beyond the arena. -/
theorem index_in_bounds (f : PheromoneField) (pos : ℚ × ℚ)
    (hW : 1 ≤ f.gridW) (hH : 1 ≤ f.gridH) :
    0 ≤ (index f pos).1 ∧ (index f pos).1 < (f.gridW : ℤ) ∧
    0 ≤ (index f pos).2 ∧ (index f pos).2 < (f.gridH : ℤ) := by
  simp only [index, clampIdx]
  omega

/-- C1 witness: the bounds hold concretely for a position far outside the
arena of `testField`. -/
theorem index_in_bounds_witness :
    1 ≤ testField.gridW ∧ 1 ≤ testField.gridH ∧
    (0 ≤ (index testField (-500, 12345)).1 ∧
     (index testField (-500, 12345)).1 < (testField.gridW : ℤ) ∧
     0 ≤ (index testField (-500, 12345)).2 ∧
     (index testField (-500, 12345)).2 < (testField.gridH : ℤ)) :=
  ⟨by decide, by decide,
   index_in_bounds testField (-500, 12345) (by decide) (by decide)⟩

/-! ### deposit (lines 115-143) -/

/-- The nine loop iterations of the neighbour-spread loop
(`for dx = -1..1, for dy = -1..1`, in source iteration order). -/
def offsets : List (ℤ × ℤ) :=
  [(-1, -1), (-1, 0), (-1, 1), (0, -1), (0, 0), (0, 1), (1, -1), (1, 0), (1, 1)]

/-- One iteration of the neighbour-spread loop (lines 126-142) acting on the
target channel grid.  For `dx, dy ∈ {-1, 0, 1}` the source guard
`distance > 0 && distance <= spreadRadius` with
`distance = Math.sqrt(dx*dx+dy*dy)` and `spreadRadius = 1` is equivalent to
`dx² + dy² = 1` (the square is one of 0, 1, 2, and the square root is
monotone), and on that guard `distance` is exactly 1, so the weight
`(1 - distance / spreadRadius) * 0.3` is `(1 - 1/1) * (3/10)`. -/
def spreadStep (gw gh : ℕ) (gx gy : ℕ) (amt bonus : ℚ)
    (g : ℕ → ℕ → ℚ) (d : ℤ × ℤ) : ℕ → ℕ → ℚ :=
  let nx : ℤ := (gx : ℤ) + d.1
  let ny : ℤ := (gy : ℤ) + d.2
  if 0 ≤ nx ∧ nx < (gw : ℤ) ∧ 0 ≤ ny ∧ ny < (gh : ℤ) ∧ d.1 ^ 2 + d.2 ^ 2 = 1 then
    updAt g nx.toNat ny.toNat
      (min (g nx.toNat ny.toNat + amt * bonus * (1 - 1 / 1) * (3 / 10)) 1000)
  else g

/-- `deposit(pos, type, amt, successBonus)` (lines 115-143).  The channel
string `type === 'home'` is modelled by the boolean `isHome`.  Adds
`amt * bonus` (clamped at 1000) to the target channel at the indexed cell,
adds `bonus * 0.1` to `pathSuccess` at that cell (no clamp in the source),
then runs the neighbour-spread loop on the target channel. -/
def deposit (f : PheromoneField) (pos : ℚ × ℚ) (isHome : Bool)
    (amt bonus : ℚ) : PheromoneField :=
  let gi := index f pos
  let gx := gi.1.toNat
  let gy := gi.2.toNat
  let f1 :=
    if isHome then
      { f with home := updAt f.home gx gy (min (f.home gx gy + amt * bonus) 1000) }
    else
      { f with food := updAt f.food gx gy (min (f.food gx gy + amt * bonus) 1000) }
  let f2 := { f1 with
    pathSuccess := updAt f1.pathSuccess gx gy
      (f1.pathSuccess gx gy + bonus * (1 / 10)) }
  if isHome then
    { f2 with home := offsets.foldl (spreadStep f.gridW f.gridH gx gy amt bonus) f2.home }
  else
    { f2 with food := offsets.foldl (spreadStep f.gridW f.gridH gx gy amt bonus) f2.food }

/-- `reinforcePath(pathPoints, strength)` (lines 195-205).  Null entries in
the array (`if (!pos) continue`) are modelled as `none`; a null or empty
array and the empty list both leave the field unchanged. -/
def reinforcePath (f : PheromoneField) (pts : List (Option (ℚ × ℚ)))
    (strength : ℚ) : PheromoneField :=
  pts.foldl
    (fun g p =>
      match p with
      | none => g
      | some pos =>
        let gi := index g pos
        if 0 ≤ gi.1 ∧ gi.1 < (g.gridW : ℤ) ∧ 0 ≤ gi.2 ∧ gi.2 < (g.gridH : ℤ) then
          { g with pathSuccess := updAt g.pathSuccess gi.1.toNat gi.2.toNat (min (g.pathSuccess gi.1.toNat gi.2.toNat + strength) 100) }
        else g)
    f

/-- One recorded `deposit` call. -/
structure DepositOp where
  pos : ℚ × ℚ
  isHome : Bool
  amt : ℚ
  bonus : ℚ

/-- Apply a sequence of `deposit` calls in order. -/
def applyDeposits (f : PheromoneField) (ops : List DepositOp) : PheromoneField :=
  ops.foldl (fun g o => deposit g o.pos o.isHome o.amt o.bonus) f

/-- A fold preserves a predicate that every step preserves. -/
theorem foldl_preserve {α β : Type} (P : β → Prop) (step : β → α → β)
    (h : ∀ b a, P b → P (step b a)) :
    ∀ (l : List α) (b : β), P b → P (l.foldl step b) := by
  intro l
  induction l with
  | nil => intro b hb; exact hb
  | cons a l ih => intro b hb; exact ih (step b a) (h b a hb)

theorem updAt_le {g : ℕ → ℕ → ℚ} {c : ℚ} (i j : ℕ) (v : ℚ)
    (hg : ∀ x y, g x y ≤ c) (hv : v ≤ c) :
    ∀ x y, updAt g i j v x y ≤ c := by
  intro x y
  unfold updAt
  split
  · exact hv
  · exact hg x y

theorem spreadStep_le {gw gh gx gy : ℕ} {amt bonus : ℚ}
    {g : ℕ → ℕ → ℚ} (d : ℤ × ℤ) (hg : ∀ x y, g x y ≤ 1000) :
    ∀ x y, spreadStep gw gh gx gy amt bonus g d x y ≤ 1000 := by
  unfold spreadStep
  split
  · exact updAt_le _ _ _ hg (min_le_right _ _)
  · exact hg

/-- `deposit` keeps both trail channels at most 1000. -/
theorem deposit_home_food_le (f : PheromoneField) (pos : ℚ × ℚ)
    (isHome : Bool) (amt bonus : ℚ)
    (hf : ∀ x y, f.home x y ≤ 1000 ∧ f.food x y ≤ 1000) :
    ∀ x y, (deposit f pos isHome amt bonus).home x y ≤ 1000 ∧
           (deposit f pos isHome amt bonus).food x y ≤ 1000 := by
  intro x y
  unfold deposit
  cases isHome with
  | true =>
    simp only [if_true]
    constructor
    · exact foldl_preserve (fun g : ℕ → ℕ → ℚ => ∀ x y : ℕ, g x y ≤ 1000) _
        (fun g d hg => spreadStep_le d hg) offsets _
        (updAt_le _ _ _ (fun x y => (hf x y).1) (min_le_right _ _)) x y
    · exact (hf x y).2
  | false =>
    simp only [if_false, Bool.false_eq_true]
    constructor
    · exact (hf x y).1
    · exact foldl_preserve (fun g : ℕ → ℕ → ℚ => ∀ x y : ℕ, g x y ≤ 1000) _
        (fun g d hg => spreadStep_le d hg) offsets _
        (updAt_le _ _ _ (fun x y => (hf x y).2) (min_le_right _ _)) x y

/-- C2 (amended): any sequence of positive deposits keeps every `home` and
`food` cell at most 1000, and `reinforcePath` keeps every `pathSuccess`
cell at most 100. -/
theorem deposit_clamps_channels (f : PheromoneField) (ops : List DepositOp)
    (_hpos : ∀ o ∈ ops, 0 < o.amt ∧ 0 < o.bonus)
    (hf : ∀ x y, f.home x y ≤ 1000 ∧ f.food x y ≤ 1000) :
    (∀ x y, (applyDeposits f ops).home x y ≤ 1000 ∧
            (applyDeposits f ops).food x y ≤ 1000) ∧
    (∀ (g : PheromoneField) (pts : List (Option (ℚ × ℚ))) (s : ℚ),
      (∀ x y, g.pathSuccess x y ≤ 100) →
      ∀ x y, (reinforcePath g pts s).pathSuccess x y ≤ 100) := by
  constructor
  · unfold applyDeposits
    exact foldl_preserve
      (fun g : PheromoneField => ∀ x y : ℕ, g.home x y ≤ 1000 ∧ g.food x y ≤ 1000)
      _ (fun g o hg => deposit_home_food_le g o.pos o.isHome o.amt o.bonus hg)
      ops f hf
  · intro g pts s hg
    unfold reinforcePath
    refine foldl_preserve
      (fun g : PheromoneField => ∀ x y : ℕ, g.pathSuccess x y ≤ 100) _ ?_ pts g hg
    intro b p hb
    match p with
    | none => exact hb
    | some pos =>
      simp only
      split
      · exact updAt_le _ _ _ hb (min_le_right _ _)
      · exact hb

/-- C2 witness: the amended bounds hold concretely for one positive deposit
into the zero field followed by one `reinforcePath` call. -/
theorem deposit_clamps_channels_witness :
    (∀ o ∈ [DepositOp.mk (5, 5) false 1 2], 0 < o.amt ∧ 0 < o.bonus) ∧
    (∀ x y, (applyDeposits testField [DepositOp.mk (5, 5) false 1 2]).home x y ≤ 1000 ∧
            (applyDeposits testField [DepositOp.mk (5, 5) false 1 2]).food x y ≤ 1000) :=
  ⟨by decide,
   (deposit_clamps_channels testField [DepositOp.mk (5, 5) false 1 2]
     (by decide) (fun x y => by constructor <;> norm_num [testField])).1⟩

/-- C2 counterexample: a single `deposit` with positive amount and positive
`successBonus` pushes a `pathSuccess` cell to 200, above the claimed bound
of 100 — `deposit` does not clamp the success grid (source line 122). -/
theorem deposit_pathSuccess_unclamped_cex :
    (deposit testField (5, 5) false 1 2000).pathSuccess 0 0 = 200 ∧
    ¬ (deposit testField (5, 5) false 1 2000).pathSuccess 0 0 ≤ 100 := by
  constructor <;>
    norm_num [deposit, index, clampIdx, testField, updAt, spreadStep, offsets]

/-- A 3×3 all-zero field with unit cells, giving the spread loop room for
all eight neighbours of the centre cell. -/
def testField3 : PheromoneField where
  cell := 1
  gridW := 3
  gridH := 3
  home := fun _ _ => 0
  food := fun _ _ => 0
  pathSuccess := fun _ _ => 0

/-- C3: depositing into the centre of an all-zero 3×3 field leaves every
one of the eight neighbouring cells at exactly 0 (the source's spread
weight `(1 - distance/radius) * 0.3` is zero for the four orthogonal
neighbours, whose distance equals the radius, and the guard
`distance <= spreadRadius` excludes the four diagonal neighbours, whose
distance is √2 > 1), while the primary cell receives the deposit.  This
contradicts the claimed nonzero neighbour spread. -/
theorem deposit_spread_leaves_neighbors_zero :
    (deposit testField3 (3 / 2, 3 / 2) false 1 1).food 1 1 = 1 ∧
    (deposit testField3 (3 / 2, 3 / 2) false 1 1).food 0 0 = 0 ∧
    (deposit testField3 (3 / 2, 3 / 2) false 1 1).food 0 1 = 0 ∧
    (deposit testField3 (3 / 2, 3 / 2) false 1 1).food 0 2 = 0 ∧
    (deposit testField3 (3 / 2, 3 / 2) false 1 1).food 1 0 = 0 ∧
    (deposit testField3 (3 / 2, 3 / 2) false 1 1).food 1 2 = 0 ∧
    (deposit testField3 (3 / 2, 3 / 2) false 1 1).food 2 0 = 0 ∧
    (deposit testField3 (3 / 2, 3 / 2) false 1 1).food 2 1 = 0 ∧
    (deposit testField3 (3 / 2, 3 / 2) false 1 1).food 2 2 = 0 := by
  refine ⟨?_, ?_, ?_, ?_, ?_, ?_, ?_, ?_, ?_⟩
  all_goals norm_num [deposit, index, clampIdx, testField3, updAt, spreadStep, offsets]
  all_goals simp

/-! ## Food (src/simulation.js lines 2387-2417) -/

structure Food where
  pos : ℚ × ℚ
  amount : ℚ
  radius : ℚ
  originalAmount : ℚ

/-- `containsAndTake(pos)` (lines 2405-2413): fail when empty, otherwise
take one unit when the position is strictly inside the radius.  The
source's `pos.subtract(this.pos).magnitude() < this.radius` is modelled
as `distSq < radius²`, equivalent for the source's always-positive radius
(constructor sets `20 + Math.random() * 10`). -/
def containsAndTake (s : Food) (p : ℚ × ℚ) : Bool × Food :=
  if s.amount ≤ 0 then (false, s)
  else if distSq p s.pos < s.radius ^ 2 then
    (true, { s with amount := max 0 (s.amount - 1) })
  else (false, s)

/-- `isDepleted()` (lines 2415-2417). -/
def isDepleted (s : Food) : Bool :=
  decide (s.amount ≤ 0)

/-- `n` successive `containsAndTake` calls from the same position. -/
def takeN (s : Food) (p : ℚ × ℚ) : ℕ → Food
  | 0 => s
  | n + 1 => takeN (containsAndTake s p).2 p n

theorem takeN_depletes (p : ℚ × ℚ) :
    ∀ (n : ℕ) (s : Food), s.amount = (n : ℚ) →
      distSq p s.pos < s.radius ^ 2 → (takeN s p n).amount = 0 := by
  intro n
  induction n with
  | zero => intro s h _; simpa [takeN] using h
  | succ k ih =>
    intro s h hd
    have h0 : ¬ s.amount ≤ 0 := by
      rw [h, not_le]; push_cast; positivity
    have hstep : (containsAndTake s p).2 =
        { s with amount := max 0 (s.amount - 1) } := by
      simp [containsAndTake, h0, hd]
    have hamt : (containsAndTake s p).2.amount = (k : ℚ) := by
      rw [hstep]
      show max 0 (s.amount - 1) = (k : ℚ)
      rw [h]
      push_cast
      have e : ((k : ℚ) + 1) - 1 = (k : ℚ) := by ring
      rw [e, max_eq_right (Nat.cast_nonneg k)]
    have hd2 : distSq p (containsAndTake s p).2.pos <
        (containsAndTake s p).2.radius ^ 2 := by
      rw [hstep]; exact hd
    simpa [takeN] using ih (containsAndTake s p).2 hamt hd2

/-- C8: `containsAndTake` succeeds exactly when the source still has a
positive amount and the caller is strictly within the radius; a
successful take from an integral amount decrements by exactly one; a
failed take leaves the state untouched; the amount never goes negative;
taking exactly `originalAmount` times from within the radius depletes
the source; and a take from outside the radius never changes the
amount. -/
theorem containsAndTake_spec (s : Food) (p : ℚ × ℚ) :
    ((containsAndTake s p).1 = true ↔
      0 < s.amount ∧ distSq p s.pos < s.radius ^ 2) ∧
    (1 ≤ s.amount → distSq p s.pos < s.radius ^ 2 →
      (containsAndTake s p).2.amount = s.amount - 1) ∧
    ((containsAndTake s p).1 = false → (containsAndTake s p).2 = s) ∧
    (0 ≤ s.amount → 0 ≤ (containsAndTake s p).2.amount) ∧
    (∀ n : ℕ, s.originalAmount = (n : ℚ) → s.amount = s.originalAmount →
      distSq p s.pos < s.radius ^ 2 → isDepleted (takeN s p n) = true) ∧
    (¬ distSq p s.pos < s.radius ^ 2 →
      (containsAndTake s p).2.amount = s.amount) := by
  have hce : containsAndTake s p =
      if 0 < s.amount ∧ distSq p s.pos < s.radius ^ 2 then
        (true, { s with amount := max 0 (s.amount - 1) })
      else (false, s) := by
    unfold containsAndTake
    by_cases h1 : s.amount ≤ 0
    · rw [if_pos h1, if_neg]
      exact fun hc => absurd hc.1 (not_lt.mpr h1)
    · rw [if_neg h1]
      by_cases h2 : distSq p s.pos < s.radius ^ 2
      · rw [if_pos h2, if_pos ⟨not_le.mp h1, h2⟩]
      · rw [if_neg h2, if_neg (fun hc => absurd hc.2 h2)]
  refine ⟨?_, ?_, ?_, ?_, ?_, ?_⟩
  · rw [hce]
    split_ifs with h
    · simpa using h
    · simpa using h
  · intro hge hd
    rw [hce, if_pos ⟨by linarith, hd⟩]
    show max 0 (s.amount - 1) = s.amount - 1
    exact max_eq_right (by linarith)
  · rw [hce]
    split_ifs with h
    · intro hc; simp at hc
    · intro _; rfl
  · intro h0
    rw [hce]
    split_ifs with h
    · exact le_max_left _ _
    · exact h0
  · intro n ho ha hd
    have := takeN_depletes p n s (ha.trans ho) hd
    simp [isDepleted, this]
  · intro hd
    rw [hce, if_neg (fun hc => absurd hc.2 hd)]

/-- C8 witness: a source with 2 units at the origin and radius 20,
queried from inside the radius, succeeds and decrements to 1; two takes
deplete it. -/
theorem containsAndTake_spec_witness :
    (1 ≤ (Food.mk (0, 0) 2 20 2).amount ∧
     distSq (3, 4) (Food.mk (0, 0) 2 20 2).pos < (Food.mk (0, 0) 2 20 2).radius ^ 2 ∧
     (containsAndTake (Food.mk (0, 0) 2 20 2) (3, 4)).2.amount =
       (Food.mk (0, 0) 2 20 2).amount - 1) ∧
    ((Food.mk (0, 0) 2 20 2).originalAmount = ((2 : ℕ) : ℚ) ∧
     isDepleted (takeN (Food.mk (0, 0) 2 20 2) (3, 4) 2) = true) := by
  have h1 : 1 ≤ (Food.mk (0, 0) 2 20 2).amount := by norm_num
  have h2 : distSq (3, 4) (Food.mk (0, 0) 2 20 2).pos <
      (Food.mk (0, 0) 2 20 2).radius ^ 2 := by norm_num [distSq]
  have ho : (Food.mk (0, 0) 2 20 2).originalAmount = ((2 : ℕ) : ℚ) := by norm_num
  have ha : (Food.mk (0, 0) 2 20 2).amount = (Food.mk (0, 0) 2 20 2).originalAmount := by
    norm_num
  exact ⟨⟨h1, h2, (containsAndTake_spec (Food.mk (0, 0) 2 20 2) (3, 4)).2.1 h1 h2⟩,
         ⟨ho, (containsAndTake_spec (Food.mk (0, 0) 2 20 2) (3, 4)).2.2.2.2.1 2 ho ha h2⟩⟩

/-! ## Nest delivery (src/simulation.js lines 2924-2986)

The nest is the plain object built at line 237; the delivery transaction
is the `else` branch of the food-pickup section of `Ant.update`.  Wall
clock time (`performance.now()`) enters only through the trip duration
`performance.now() - this.lastFoodTime`, modelled as the parameter
`trip`; the random momentum `Vec.random().multiply(0.3)` is modelled by
the oracle parameter `rv` for the random unit vector.  The
`tripStartTime`/`lastFoodTime` timestamps themselves are not part of the
modelled state. -/

structure Nest where
  x : ℚ
  y : ℚ
  radius : ℚ
  foodStored : ℚ
  maxCapacity : ℚ
  efficiency : ℚ
  isFull : Bool

/-- Agent state relevant to the delivery transaction. -/
structure AntSt where
  position : ℚ × ℚ
  hasFood : Bool
  path : List (ℚ × ℚ)
  momentum : ℚ × ℚ
  energy : ℚ

/-- Componentwise scalar multiple, `Vec.multiply`. -/
def smul (v : ℚ × ℚ) (c : ℚ) : ℚ × ℚ :=
  (v.1 * c, v.2 * c)

/-- `distanceEfficiency` (line 2946): `Math.max(0.5, 1 - (pathLength*2)/1000)`. -/
def distanceEfficiency (pathLength : ℕ) : ℚ :=
  max (1 / 2) (1 - (pathLength * 2) / 1000)

/-- `timeEfficiency` (line 2947): `Math.max(0.5, 1 - tripDuration/30000)`. -/
def timeEfficiency (trip : ℚ) : ℚ :=
  max (1 / 2) (1 - trip / 30000)

/-- `overallEfficiency` (line 2948). -/
def overallEfficiency (pathLength : ℕ) (trip : ℚ) : ℚ :=
  (distanceEfficiency pathLength + timeEfficiency trip) / 2

/-- `foodGained` (line 2955): `Math.floor(1 + overallEfficiency)`. -/
def foodGained (pathLength : ℕ) (trip : ℚ) : ℚ :=
  (⌊1 + overallEfficiency pathLength trip⌋ : ℚ)

/-- The delivery step (lines 2924-2986): a returning agent within
`radius + 5` of the nest either wastes its food on a full nest (the nest
and the field are untouched apart from `isFull := true`) or credits the
nest with `foodGained`, clamping to `maxCapacity` and marking full when
capacity is reached.  The source's `nestDist < targetNest.radius + 5` is
modelled as `distSq < (radius + 5)²` (equivalent for the source's
positive nest radius). -/
def deliverAtNest (nest : Nest) (ant : AntSt) (field : PheromoneField)
    (trip : ℚ) (rv : ℚ × ℚ) : Nest × AntSt × PheromoneField :=
  if ant.hasFood = true ∧
      distSq ant.position (nest.x, nest.y) < (nest.radius + 5) ^ 2 then
    if nest.maxCapacity ≤ nest.foodStored then
      ({ nest with isFull := true },
       { ant with hasFood := false, path := [], momentum := smul rv (3 / 10) },
       field)
    else
      (if nest.maxCapacity ≤ nest.foodStored + foodGained ant.path.length trip then
         { nest with foodStored := nest.maxCapacity, isFull := true,
                     efficiency := min 2 (nest.efficiency * (95 / 100) +
                       overallEfficiency ant.path.length trip * (5 / 100)) }
       else
         { nest with foodStored := nest.foodStored + foodGained ant.path.length trip,
                     efficiency := min 2 (nest.efficiency * (95 / 100) +
                       overallEfficiency ant.path.length trip * (5 / 100)) },
       { ant with hasFood := false, path := [], energy := 100,
                  momentum := smul rv (3 / 10) },
       if 3 < ant.path.length then
         reinforcePath field (ant.path.map some)
           (overallEfficiency ant.path.length trip * 6)
       else field)
  else (nest, ant, field)

/-- One delivery attempt: arbitrary agent, field, trip duration and
random vector against the current nest. -/
structure DeliveryEv where
  ant : AntSt
  field : PheromoneField
  trip : ℚ
  rv : ℚ × ℚ

/-- Fold a sequence of delivery attempts over the nest. -/
def applyDeliveries (nest : Nest) (evs : List DeliveryEv) : Nest :=
  evs.foldl (fun n e => (deliverAtNest n e.ant e.field e.trip e.rv).1) nest

theorem deliver_step_nest (m : Nest) (a : AntSt) (f : PheromoneField)
    (t : ℚ) (rv : ℚ × ℚ) :
    (deliverAtNest m a f t rv).1.maxCapacity = m.maxCapacity ∧
    (m.foodStored ≤ m.maxCapacity →
      (deliverAtNest m a f t rv).1.foodStored ≤ m.maxCapacity) ∧
    (m.isFull = true → (deliverAtNest m a f t rv).1.isFull = true) := by
  unfold deliverAtNest
  split_ifs with h1 h2 h3 h4
  · exact ⟨rfl, fun h => h, fun _ => rfl⟩
  · exact ⟨rfl, fun _ => le_refl _, fun _ => rfl⟩
  · exact ⟨rfl, fun _ => le_refl _, fun _ => rfl⟩
  · exact ⟨rfl, fun _ => le_of_lt (not_le.mp h3), fun h => h⟩
  · exact ⟨rfl, fun _ => le_of_lt (not_le.mp h3), fun h => h⟩
  · exact ⟨rfl, fun h => h, fun h => h⟩

/-- C4: under any sequence of delivery attempts, a nest that starts within
capacity stays within capacity; `isFull`, once true, stays true; and a
single delivery that would exceed capacity sets `foodStored` to exactly
`maxCapacity` and marks the nest full. -/
theorem nest_capacity_invariant (nest : Nest) (evs : List DeliveryEv)
    (h0 : nest.foodStored ≤ nest.maxCapacity) :
    (applyDeliveries nest evs).foodStored ≤ (applyDeliveries nest evs).maxCapacity ∧
    (nest.isFull = true → (applyDeliveries nest evs).isFull = true) ∧
    (∀ (m : Nest) (e : DeliveryEv), e.ant.hasFood = true →
      distSq e.ant.position (m.x, m.y) < (m.radius + 5) ^ 2 →
      ¬ m.maxCapacity ≤ m.foodStored →
      m.maxCapacity ≤ m.foodStored + foodGained e.ant.path.length e.trip →
      (deliverAtNest m e.ant e.field e.trip e.rv).1.foodStored = m.maxCapacity ∧
      (deliverAtNest m e.ant e.field e.trip e.rv).1.isFull = true) := by
  have hfold : ∀ (l : List DeliveryEv) (n : Nest),
      n.foodStored ≤ n.maxCapacity ∧ (nest.isFull = true → n.isFull = true) →
      (applyDeliveries n l).foodStored ≤ (applyDeliveries n l).maxCapacity ∧
      (nest.isFull = true → (applyDeliveries n l).isFull = true) := by
    intro l
    induction l with
    | nil => intro n hn; exact hn
    | cons e l ih =>
      intro n hn
      apply ih
      obtain ⟨hc, hfull⟩ := hn
      obtain ⟨hcap, hst, hmono⟩ := deliver_step_nest n e.ant e.field e.trip e.rv
      refine ⟨?_, fun h => hmono (hfull h)⟩
      rw [hcap]
      exact hst hc
  obtain ⟨ha, hb⟩ := hfold evs nest ⟨h0, fun h => h⟩
  refine ⟨ha, hb, ?_⟩
  intro m e h1 h2 h3 h4
  unfold deliverAtNest
  rw [if_pos ⟨h1, h2⟩, if_neg h3, if_pos h4]
  exact ⟨rfl, rfl⟩

/-- A nest at the origin holding 5 of 10 units, and one already full. -/
def testNest : Nest where
  x := 0
  y := 0
  radius := 10
  foodStored := 5
  maxCapacity := 10
  efficiency := 1
  isFull := false

/-- A delivering agent sitting on the nest. -/
def testAnt : AntSt where
  position := (0, 0)
  hasFood := true
  path := [(1, 1)]
  momentum := (0, 0)
  energy := 50

/-- C4 witness: the capacity bound holds concretely after one delivery
attempt against `testNest`. -/
theorem nest_capacity_invariant_witness :
    testNest.foodStored ≤ testNest.maxCapacity ∧
    (applyDeliveries testNest [DeliveryEv.mk testAnt testField 0 (1, 0)]).foodStored ≤
      (applyDeliveries testNest [DeliveryEv.mk testAnt testField 0 (1, 0)]).maxCapacity :=
  ⟨by norm_num [testNest],
   (nest_capacity_invariant testNest [DeliveryEv.mk testAnt testField 0 (1, 0)]
     (by norm_num [testNest])).1⟩

/-- C5: a full nest rejects the delivery atomically — `foodStored` is
unchanged, the nest is marked full, the agent reverts to exploring
(`hasFood = false`) with an empty path, and the pheromone field is
untouched. -/
theorem full_nest_rejects_delivery (nest : Nest) (ant : AntSt)
    (field : PheromoneField) (trip : ℚ) (rv : ℚ × ℚ)
    (h1 : ant.hasFood = true)
    (h2 : distSq ant.position (nest.x, nest.y) < (nest.radius + 5) ^ 2)
    (h3 : nest.maxCapacity ≤ nest.foodStored) :
    (deliverAtNest nest ant field trip rv).1.foodStored = nest.foodStored ∧
    (deliverAtNest nest ant field trip rv).1.isFull = true ∧
    (deliverAtNest nest ant field trip rv).2.1.hasFood = false ∧
    (deliverAtNest nest ant field trip rv).2.1.path = [] ∧
    (deliverAtNest nest ant field trip rv).2.2 = field := by
  unfold deliverAtNest
  rw [if_pos ⟨h1, h2⟩, if_pos h3]
  exact ⟨rfl, rfl, rfl, rfl, rfl⟩

/-- A nest identical to `testNest` but already at capacity. -/
def fullNest : Nest where
  x := 0
  y := 0
  radius := 10
  foodStored := 10
  maxCapacity := 10
  efficiency := 1
  isFull := true

/-- C5 witness: the rejection behaviour holds concretely for an agent
delivering to the already-full `fullNest`. -/
theorem full_nest_rejects_delivery_witness :
    (testAnt.hasFood = true ∧
     distSq testAnt.position (fullNest.x, fullNest.y) < (fullNest.radius + 5) ^ 2 ∧
     fullNest.maxCapacity ≤ fullNest.foodStored) ∧
    ((deliverAtNest fullNest testAnt testField 0 (1, 0)).1.foodStored =
       fullNest.foodStored ∧
     (deliverAtNest fullNest testAnt testField 0 (1, 0)).2.1.hasFood = false ∧
     (deliverAtNest fullNest testAnt testField 0 (1, 0)).2.1.path = []) := by
  have h1 : testAnt.hasFood = true := by norm_num [testAnt]
  have h2 : distSq testAnt.position (fullNest.x, fullNest.y) <
      (fullNest.radius + 5) ^ 2 := by norm_num [distSq, testAnt, fullNest]
  have h3 : fullNest.maxCapacity ≤ fullNest.foodStored := by norm_num [fullNest]
  obtain ⟨ha, _, hc, hd, _⟩ :=
    full_nest_rejects_delivery fullNest testAnt testField 0 (1, 0) h1 h2 h3
  exact ⟨⟨h1, h2, h3⟩, ha, hc, hd⟩

/-! ### evaporate (src/simulation.js lines 171-183) -/

/-- The snap-to-zero rule (lines 178-180): values below 0.01 become 0. -/
def snap (v : ℚ) : ℚ :=
  if v < 1 / 100 then 0 else v

/-- One evaporation step of a single cell: multiply by the decay factor
`c` (`1 - rate` for the trail grids, `1 - rate * 0.3` for the success
grid), then snap. -/
def evapCell (c v : ℚ) : ℚ :=
  snap (v * c)

/-- `evaporate(rate)` (lines 171-183): the source loops over `x < gridW`,
`y < gridH`, so only in-range cells are touched. -/
def evaporate (f : PheromoneField) (rate : ℚ) : PheromoneField :=
  { f with
    home := fun x y =>
      if x < f.gridW ∧ y < f.gridH then evapCell (1 - rate) (f.home x y)
      else f.home x y
    food := fun x y =>
      if x < f.gridW ∧ y < f.gridH then evapCell (1 - rate) (f.food x y)
      else f.food x y
    pathSuccess := fun x y =>
      if x < f.gridW ∧ y < f.gridH then
        evapCell (1 - rate * (3 / 10)) (f.pathSuccess x y)
      else f.pathSuccess x y }

theorem evapCell_le {c v : ℚ} (hv : 0 ≤ v) (_hc0 : 0 ≤ c) (hc1 : c ≤ 1) :
    evapCell c v ≤ v := by
  unfold evapCell snap
  split_ifs with h
  · exact hv
  · exact mul_le_of_le_one_right hv hc1

theorem evapCell_iter_cases (c : ℚ) :
    ∀ (n : ℕ) (v : ℚ), (evapCell c)^[n] v = 0 ∨ (evapCell c)^[n] v = c ^ n * v := by
  intro n
  induction n with
  | zero => intro v; right; simp
  | succ k ih =>
    intro v
    rw [Function.iterate_succ_apply']
    rcases ih v with h | h
    · left
      rw [h]
      unfold evapCell snap
      rw [zero_mul]
      norm_num
    · rw [h]
      unfold evapCell snap
      split_ifs with hlt
      · left; rfl
      · right; ring

theorem evapCell_iter_zero {c v M : ℚ} (n : ℕ) (hv0 : 0 ≤ v) (hvM : v ≤ M)
    (hc0 : 0 ≤ c) (hc1 : c ≤ 1) (hn : c ^ n * M < 1 / 100) :
    (evapCell c)^[n + 1] v = 0 := by
  rw [Function.iterate_succ_apply']
  rcases evapCell_iter_cases c n v with h | h
  · rw [h]
    unfold evapCell snap
    rw [zero_mul]
    norm_num
  · rw [h]
    unfold evapCell snap
    have hp : 0 ≤ c ^ n := pow_nonneg hc0 n
    have h1 : c ^ n * v ≤ c ^ n * M := mul_le_mul_of_nonneg_left hvM hp
    have h2 : c ^ n * v * c ≤ c ^ n * v * 1 :=
      mul_le_mul_of_nonneg_left hc1 (mul_nonneg hp hv0)
    rw [if_pos (by linarith)]

/-- Iterating `evaporate` acts cellwise on in-range cells and preserves the
grid dimensions. -/
theorem evaporate_iterate_cell (f : PheromoneField) (r : ℚ) :
    ∀ n : ℕ,
      ((fun g => evaporate g r)^[n] f).gridW = f.gridW ∧
      ((fun g => evaporate g r)^[n] f).gridH = f.gridH ∧
      ∀ x y, x < f.gridW → y < f.gridH →
        ((fun g => evaporate g r)^[n] f).home x y =
          (evapCell (1 - r))^[n] (f.home x y) ∧
        ((fun g => evaporate g r)^[n] f).food x y =
          (evapCell (1 - r))^[n] (f.food x y) ∧
        ((fun g => evaporate g r)^[n] f).pathSuccess x y =
          (evapCell (1 - r * (3 / 10)))^[n] (f.pathSuccess x y) := by
  intro n
  induction n with
  | zero => exact ⟨rfl, rfl, fun x y _ _ => ⟨rfl, rfl, rfl⟩⟩
  | succ k ih =>
    obtain ⟨hW, hH, hcell⟩ := ih
    rw [Function.iterate_succ_apply']
    refine ⟨hW, hH, ?_⟩
    intro x y hx hy
    obtain ⟨h1, h2, h3⟩ := hcell x y hx hy
    have hin : x < ((fun g => evaporate g r)^[k] f).gridW ∧
        y < ((fun g => evaporate g r)^[k] f).gridH := by
      rw [hW, hH]; exact ⟨hx, hy⟩
    refine ⟨?_, ?_, ?_⟩
    · show (if _ then _ else _) = _
      rw [if_pos hin, h1, Function.iterate_succ_apply']
    · show (if _ then _ else _) = _
      rw [if_pos hin, h2, Function.iterate_succ_apply']
    · show (if _ then _ else _) = _
      rw [if_pos hin, h3, Function.iterate_succ_apply']

/-- C7: for a rate in (0,1), one `evaporate` call never increases any cell
(all three grids), and some finite number of repeated calls drives every
in-range cell of all three grids to exactly 0, thanks to the sub-0.01
snap rule. -/
theorem evaporate_monotone_and_converges (f : PheromoneField) (r M : ℚ)
    (hr0 : 0 < r) (hr1 : r < 1)
    (hnn : ∀ x y, x < f.gridW → y < f.gridH →
      0 ≤ f.home x y ∧ 0 ≤ f.food x y ∧ 0 ≤ f.pathSuccess x y)
    (hM : ∀ x y, x < f.gridW → y < f.gridH →
      f.home x y ≤ M ∧ f.food x y ≤ M ∧ f.pathSuccess x y ≤ M) :
    (∀ x y, (evaporate f r).home x y ≤ f.home x y ∧
            (evaporate f r).food x y ≤ f.food x y ∧
            (evaporate f r).pathSuccess x y ≤ f.pathSuccess x y) ∧
    (∃ n : ℕ, ∀ x y, x < f.gridW → y < f.gridH →
      ((fun g => evaporate g r)^[n] f).home x y = 0 ∧
      ((fun g => evaporate g r)^[n] f).food x y = 0 ∧
      ((fun g => evaporate g r)^[n] f).pathSuccess x y = 0) := by
  have hc1a : (0 : ℚ) ≤ 1 - r := by linarith
  have hc1b : (1 : ℚ) - r ≤ 1 := by linarith
  have hc2a : (0 : ℚ) ≤ 1 - r * (3 / 10) := by linarith
  have hc2b : (1 : ℚ) - r * (3 / 10) ≤ 1 := by linarith
  have hc2lt : (1 : ℚ) - r * (3 / 10) < 1 := by linarith
  have hc12 : (1 : ℚ) - r ≤ 1 - r * (3 / 10) := by linarith
  constructor
  · intro x y
    by_cases hin : x < f.gridW ∧ y < f.gridH
    · obtain ⟨hn1, hn2, hn3⟩ := hnn x y hin.1 hin.2
      refine ⟨?_, ?_, ?_⟩
      · show (if _ then _ else _) ≤ _
        rw [if_pos hin]; exact evapCell_le hn1 hc1a hc1b
      · show (if _ then _ else _) ≤ _
        rw [if_pos hin]; exact evapCell_le hn2 hc1a hc1b
      · show (if _ then _ else _) ≤ _
        rw [if_pos hin]; exact evapCell_le hn3 hc2a hc2b
    · refine ⟨?_, ?_, ?_⟩ <;>
        · show (if _ then _ else _) ≤ _
          rw [if_neg hin]
  · have hM'pos : (0 : ℚ) < max M 1 := lt_of_lt_of_le one_pos (le_max_right M 1)
    obtain ⟨n, hn⟩ := exists_pow_lt_of_lt_one
      (show (0 : ℚ) < (1 / 100) / max M 1 by positivity) hc2lt
    have hn2 : (1 - r * (3 / 10)) ^ n * max M 1 < 1 / 100 :=
      (lt_div_iff₀ hM'pos).mp hn
    have hn1 : (1 - r) ^ n * max M 1 < 1 / 100 := by
      have hpow : (1 - r) ^ n ≤ (1 - r * (3 / 10)) ^ n :=
        pow_le_pow_left₀ hc1a hc12 n
      have := mul_le_mul_of_nonneg_right hpow (le_of_lt hM'pos)
      linarith
    refine ⟨n + 1, ?_⟩
    intro x y hx hy
    obtain ⟨_, _, hcell⟩ := evaporate_iterate_cell f r (n + 1)
    obtain ⟨e1, e2, e3⟩ := hcell x y hx hy
    obtain ⟨g1, g2, g3⟩ := hnn x y hx hy
    obtain ⟨b1, b2, b3⟩ := hM x y hx hy
    refine ⟨?_, ?_, ?_⟩
    · rw [e1]
      exact evapCell_iter_zero n g1 (b1.trans (le_max_left M 1)) hc1a hc1b hn1
    · rw [e2]
      exact evapCell_iter_zero n g2 (b2.trans (le_max_left M 1)) hc1a hc1b hn1
    · rw [e3]
      exact evapCell_iter_zero n g3 (b3.trans (le_max_left M 1)) hc2a hc2b hn2

/-- C7 witness: monotonicity and convergence hold concretely for
`testField` at rate 1/2 with bound 1. -/
theorem evaporate_monotone_and_converges_witness :
    ((0 : ℚ) < 1 / 2 ∧ (1 / 2 : ℚ) < 1) ∧
    (∃ n : ℕ, ∀ x y, x < testField.gridW → y < testField.gridH →
      ((fun g => evaporate g (1 / 2))^[n] testField).home x y = 0 ∧
      ((fun g => evaporate g (1 / 2))^[n] testField).food x y = 0 ∧
      ((fun g => evaporate g (1 / 2))^[n] testField).pathSuccess x y = 0) :=
  ⟨⟨by norm_num, by norm_num⟩,
   (evaporate_monotone_and_converges testField (1 / 2) 1 (by norm_num) (by norm_num)
     (fun x y _ _ => by norm_num [testField])
     (fun x y _ _ => by norm_num [testField])).2⟩

/-! ## Real-valued vector operations (src/simulation.js lines 17-68)

`Vec.magnitude` (`Math.hypot`), `Vec.normalize`, `Vec.angle`
(`Math.atan2`), `Math.cos`/`Math.sin` are the irrational operations of
the source; they are modelled over `ℝ`.  `Math.atan2(y, x)` is the
principal argument of the complex number `x + y·i` (both have range
`(-π, π]` and send the origin to 0). -/

noncomputable def magR (v : ℝ × ℝ) : ℝ :=
  Real.sqrt (v.1 ^ 2 + v.2 ^ 2)

/-- `Vec.normalize` (lines 52-55): divide by the magnitude when it is
positive, otherwise the zero vector. -/
noncomputable def normalizeR (v : ℝ × ℝ) : ℝ × ℝ :=
  if magR v > 0 then (v.1 / magR v, v.2 / magR v) else (0, 0)

/-- `Vec.angle` (lines 61-63): `Math.atan2(y, x)`. -/
noncomputable def angleR (v : ℝ × ℝ) : ℝ :=
  Complex.arg ⟨v.1, v.2⟩

theorem magR_nonneg (v : ℝ × ℝ) : 0 ≤ magR v :=
  Real.sqrt_nonneg _

theorem magR_normalizeR (v : ℝ × ℝ) (h : 0 < magR v) :
    magR (normalizeR v) = 1 := by
  have hs : (0 : ℝ) ≤ v.1 ^ 2 + v.2 ^ 2 := by positivity
  have hm2 : magR v ^ 2 = v.1 ^ 2 + v.2 ^ 2 := Real.sq_sqrt hs
  have hmne : magR v ≠ 0 := ne_of_gt h
  unfold normalizeR
  rw [if_pos h]
  show Real.sqrt ((v.1 / magR v) ^ 2 + (v.2 / magR v) ^ 2) = 1
  have he : (v.1 / magR v) ^ 2 + (v.2 / magR v) ^ 2 = 1 := by
    field_simp
    exact hm2.symm
  rw [he, Real.sqrt_one]

theorem magR_scale (v : ℝ × ℝ) (c : ℝ) :
    magR (v.1 * c, v.2 * c) = magR v * |c| := by
  unfold magR
  show Real.sqrt ((v.1 * c) ^ 2 + (v.2 * c) ^ 2) = _
  have he : (v.1 * c) ^ 2 + (v.2 * c) ^ 2 = (v.1 ^ 2 + v.2 ^ 2) * c ^ 2 := by
    ring
  rw [he, Real.sqrt_mul (by positivity), Real.sqrt_sq_eq_abs]

theorem magR_xaxis (x : ℝ) (hx : 0 ≤ x) : magR (x, 0) = x := by
  unfold magR
  show Real.sqrt (x ^ 2 + 0 ^ 2) = x
  rw [show x ^ 2 + (0 : ℝ) ^ 2 = x ^ 2 by ring, Real.sqrt_sq hx]

theorem angleR_xaxis (x : ℝ) (hx : 0 ≤ x) : angleR (x, 0) = 0 := by
  unfold angleR
  have he : (⟨x, 0⟩ : ℂ) = (x : ℂ) := by
    apply Complex.ext <;> simp
  rw [he]
  exact Complex.arg_ofReal_of_nonneg hx

/-! ## gradient (src/simulation.js lines 150-169) -/

/-- `sample(pos, type)` (lines 145-148): direct cell lookup. -/
def sample (f : PheromoneField) (pos : ℚ × ℚ) (isHome : Bool) : ℚ :=
  if isHome then f.home (index f pos).1.toNat (index f pos).2.toNat
  else f.food (index f pos).1.toNat (index f pos).2.toNat

/-- The finite-difference estimate of `gradient` before the magnitude
test (lines 151-165): 8 samples at `delta = cell * 0.8` (diagonals at a
0.7 factor), axis differences at weight 0.5 and diagonal
cross-differences at weight 0.25.  All sample positions are rational, so
this part is exact over `ℚ`. -/
def gradRaw (f : PheromoneField) (pos : ℚ × ℚ) (isHome : Bool) : ℚ × ℚ :=
  ((sample f (pos.1 + f.cell * (8 / 10), pos.2) isHome -
      sample f (pos.1 - f.cell * (8 / 10), pos.2) isHome) * (1 / 2) +
    (sample f (pos.1 + f.cell * (8 / 10) * (7 / 10), pos.2 - f.cell * (8 / 10) * (7 / 10)) isHome -
      sample f (pos.1 - f.cell * (8 / 10) * (7 / 10), pos.2 - f.cell * (8 / 10) * (7 / 10)) isHome +
      sample f (pos.1 + f.cell * (8 / 10) * (7 / 10), pos.2 + f.cell * (8 / 10) * (7 / 10)) isHome -
      sample f (pos.1 - f.cell * (8 / 10) * (7 / 10), pos.2 + f.cell * (8 / 10) * (7 / 10)) isHome) * (1 / 4),
   (sample f (pos.1, pos.2 + f.cell * (8 / 10)) isHome -
      sample f (pos.1, pos.2 - f.cell * (8 / 10)) isHome) * (1 / 2) +
    (sample f (pos.1 + f.cell * (8 / 10) * (7 / 10), pos.2 + f.cell * (8 / 10) * (7 / 10)) isHome -
      sample f (pos.1 + f.cell * (8 / 10) * (7 / 10), pos.2 - f.cell * (8 / 10) * (7 / 10)) isHome +
      sample f (pos.1 - f.cell * (8 / 10) * (7 / 10), pos.2 + f.cell * (8 / 10) * (7 / 10)) isHome -
      sample f (pos.1 - f.cell * (8 / 10) * (7 / 10), pos.2 - f.cell * (8 / 10) * (7 / 10)) isHome) * (1 / 4))

/-- `gradient(pos, type)` (lines 150-169): normalize the raw estimate when
its magnitude exceeds 0.1, otherwise the zero vector. -/
noncomputable def gradient (f : PheromoneField) (pos : ℚ × ℚ) (isHome : Bool) : ℝ × ℝ :=
  if magR (((gradRaw f pos isHome).1 : ℝ), ((gradRaw f pos isHome).2 : ℝ)) > 1 / 10 then
    normalizeR (((gradRaw f pos isHome).1 : ℝ), ((gradRaw f pos isHome).2 : ℝ))
  else (0, 0)

/-- C10: `gradient` always returns either the exact zero vector or a unit
vector; no other output is possible. -/
theorem gradient_zero_or_unit (f : PheromoneField) (pos : ℚ × ℚ) (isHome : Bool) :
    gradient f pos isHome = (0, 0) ∨ magR (gradient f pos isHome) = 1 := by
  unfold gradient
  split_ifs with h
  · right
    exact magR_normalizeR _ (lt_trans (by norm_num) h)
  · left
    rfl

/-! ## Speed update (src/simulation.js lines 2741-2777)

Step 6 of `Ant.update`: interpolate the current speed toward the
state-dependent target speed, rotate toward the steering direction with
the turn-rate limit, and clamp the result.  `Math.sign` is `Real.sign`
(both send 0 to 0 and use -1/1 on the sign), `Math.atan2` is `angleR`. -/

/-- `targetSpeed` (line 2742): `hasFood ? 2.5 : 3.0`. -/
noncomputable def targetSpeedOf (hasFood : Bool) : ℝ :=
  if hasFood then 5 / 2 else 3

/-- `speedChange` (lines 2743-2748):
`Math.sign(speedDiff) * Math.min(Math.abs(speedDiff), acceleration)`
with `acceleration = 0.1`. -/
noncomputable def speedChangeOf (currentSpeed : ℝ) (hasFood : Bool) : ℝ :=
  Real.sign (targetSpeedOf hasFood - currentSpeed) *
    min |targetSpeedOf hasFood - currentSpeed| (1 / 10)

/-- The angle-difference wrap to `(-π, π]`-ish range (lines 2756-2758). -/
noncomputable def wrapAngle (d : ℝ) : ℝ :=
  if (if d > Real.pi then d - Real.pi * 2 else d) < -Real.pi then
    (if d > Real.pi then d - Real.pi * 2 else d) + Real.pi * 2
  else (if d > Real.pi then d - Real.pi * 2 else d)

/-- Wrap then clamp the angle difference to the turn-rate limit
(lines 2754-2764). -/
noncomputable def wrapClampAngle (d mtr : ℝ) : ℝ :=
  if |wrapAngle d| > mtr then Real.sign (wrapAngle d) * mtr else wrapAngle d

/-- Lines 2750-2771: the velocity produced before the final clamp — rotate
toward the steering direction at the interpolated speed when the current
speed exceeds 0.1, else jump directly to `direction * targetSpeed`. -/
noncomputable def rotateStep (velocity direction : ℝ × ℝ) (hasFood : Bool)
    (mtr : ℝ) : ℝ × ℝ :=
  if magR velocity > 1 / 10 then
    (Real.cos (angleR velocity + wrapClampAngle (angleR direction - angleR velocity) mtr) *
       (magR velocity + speedChangeOf (magR velocity) hasFood),
     Real.sin (angleR velocity + wrapClampAngle (angleR direction - angleR velocity) mtr) *
       (magR velocity + speedChangeOf (magR velocity) hasFood))
  else
    (direction.1 * targetSpeedOf hasFood, direction.2 * targetSpeedOf hasFood)

/-- The full step-6 speed update (lines 2741-2777), ending with the clamp
`if |v| > maxSpeed * 1.5 then v := normalize(v) * (maxSpeed * 1.5)`
(lines 2773-2777). -/
noncomputable def speedUpdate (velocity direction : ℝ × ℝ) (hasFood : Bool)
    (maxSpeed mtr : ℝ) : ℝ × ℝ :=
  if magR (rotateStep velocity direction hasFood mtr) > maxSpeed * (3 / 2) then
    ((normalizeR (rotateStep velocity direction hasFood mtr)).1 * (maxSpeed * (3 / 2)),
     (normalizeR (rotateStep velocity direction hasFood mtr)).2 * (maxSpeed * (3 / 2)))
  else rotateStep velocity direction hasFood mtr

/-- C6 (amended): after the speed update the velocity magnitude is at most
`maxSpeed * 1.5` — the source clamps to `this.maxSpeed * 1.5`
(line 2774), not to `maxSpeed`. -/
theorem speed_clamped_to_max_allowed (velocity direction : ℝ × ℝ)
    (hasFood : Bool) (maxSpeed mtr : ℝ) (hms : 0 ≤ maxSpeed) :
    magR (speedUpdate velocity direction hasFood maxSpeed mtr) ≤ maxSpeed * (3 / 2) := by
  unfold speedUpdate
  split_ifs with h
  · have hv : 0 < magR (rotateStep velocity direction hasFood mtr) :=
      lt_of_le_of_lt (by positivity) h
    rw [magR_scale, magR_normalizeR _ hv, one_mul,
      abs_of_nonneg (by positivity : (0 : ℝ) ≤ maxSpeed * (3 / 2))]
  · exact le_of_not_lt h

/-- C6 witness: the `1.5 · maxSpeed` bound holds concretely for a
stationary agent with `maxSpeed = 3`. -/
theorem speed_clamped_to_max_allowed_witness :
    (0 : ℝ) ≤ 3 ∧
    magR (speedUpdate (0, 0) (1, 0) false 3 (3 / 10)) ≤ 3 * (3 / 2) :=
  ⟨by norm_num,
   speed_clamped_to_max_allowed (0, 0) (1, 0) false 3 (3 / 10) (by norm_num)⟩

theorem wrapAngle_zero : wrapAngle 0 = 0 := by
  unfold wrapAngle
  have h1 : ¬ (0 : ℝ) > Real.pi := not_lt.mpr (le_of_lt Real.pi_pos)
  rw [if_neg h1, if_neg (not_lt.mpr (by linarith [Real.pi_pos]))]

theorem wrapClampAngle_zero (mtr : ℝ) (hm : 0 ≤ mtr) :
    wrapClampAngle 0 mtr = 0 := by
  unfold wrapClampAngle
  rw [wrapAngle_zero, abs_zero, if_neg (not_lt.mpr hm)]

/-- C6 counterexample: an exploring agent moving at speed 4.4 along the
x-axis toward direction (1,0), with `maxSpeed = 3` and turn rate 0.3,
leaves the speed update at speed 4.3 > `maxSpeed` — the claimed clamp to
`maxSpeed` does not hold (the code clamps to `maxSpeed * 1.5 = 4.5`). -/
theorem speed_clamp_cex :
    3 < magR (speedUpdate ((22 / 5 : ℝ), 0) (1, 0) false 3 (3 / 10)) := by
  have hvel : magR ((22 / 5 : ℝ), 0) = 22 / 5 := magR_xaxis _ (by norm_num)
  have hang1 : angleR ((22 / 5 : ℝ), 0) = 0 := angleR_xaxis _ (by norm_num)
  have hang2 : angleR ((1 : ℝ), 0) = 0 := angleR_xaxis _ (by norm_num)
  have hsc : speedChangeOf (22 / 5) false = -(1 / 10) := by
    unfold speedChangeOf targetSpeedOf
    rw [if_neg (by simp)]
    rw [show (3 : ℝ) - 22 / 5 = -(7 / 5) by norm_num]
    rw [Real.sign_of_neg (by norm_num)]
    rw [abs_of_neg (by norm_num), min_eq_right (by norm_num)]
    norm_num
  have hrot : rotateStep ((22 / 5 : ℝ), 0) (1, 0) false (3 / 10) =
      ((43 / 10 : ℝ), 0) := by
    unfold rotateStep
    rw [hvel, if_pos (by norm_num), hang1, hang2, hsc]
    rw [show (0 : ℝ) - 0 = 0 by norm_num,
      wrapClampAngle_zero (3 / 10) (by norm_num)]
    rw [show (0 : ℝ) + 0 = 0 by norm_num, Real.cos_zero, Real.sin_zero]
    norm_num
  unfold speedUpdate
  rw [hrot, magR_xaxis _ (by norm_num), if_neg (by norm_num),
    magR_xaxis _ (by norm_num)]
  norm_num

/-! ## Obstacle.repulse (src/simulation.js lines 2282-2288, 2344-2383) -/

/-- `closestOnSeg(a, b, p)` (lines 85-90): project `p` onto the segment
and clamp the parameter to `[0, 1]`.  For a degenerate segment (`a = b`)
the JavaScript division `0/0` yields `NaN` and the segment is then
ignored by the `d < minDist` comparison; over `ℚ` the convention
`x / 0 = 0` returns the endpoint `a` instead, so the theorems below
assume every edge is nondegenerate, where both semantics agree. -/
def closestOnSeg (a b p : ℚ × ℚ) : ℚ × ℚ :=
  (a.1 + (b.1 - a.1) * max 0 (min 1
      (((p.1 - a.1) * (b.1 - a.1) + (p.2 - a.2) * (b.2 - a.2)) /
        ((b.1 - a.1) * (b.1 - a.1) + (b.2 - a.2) * (b.2 - a.2)))),
   a.2 + (b.2 - a.2) * max 0 (min 1
      (((p.1 - a.1) * (b.1 - a.1) + (p.2 - a.2) * (b.2 - a.2)) /
        ((b.1 - a.1) * (b.1 - a.1) + (b.2 - a.2) * (b.2 - a.2)))))

/-- The edge list of the blob polygon (line 2353-2355): vertex `i` paired
with vertex `(i+1) mod length`. -/
def edges (blob : List (ℚ × ℚ)) : List ((ℚ × ℚ) × (ℚ × ℚ)) :=
  (List.range blob.length).map
    (fun i => (blob.getD i (0, 0), blob.getD ((i + 1) % blob.length) (0, 0)))

/-- The minimum-distance loop of `repulse` (lines 2349-2362): fold over
the edges tracking the least distance and its closest point; `none` is
the initial `minDist = Infinity, closest = null` state. -/
noncomputable def scanEdges (p : ℚ × ℚ) (es : List ((ℚ × ℚ) × (ℚ × ℚ))) :
    Option (ℝ × (ℚ × ℚ)) :=
  es.foldl
    (fun acc e =>
      match acc with
      | none =>
        some (Real.sqrt ((distSq p (closestOnSeg e.1 e.2 p) : ℚ) : ℝ),
          closestOnSeg e.1 e.2 p)
      | some mc =>
        if Real.sqrt ((distSq p (closestOnSeg e.1 e.2 p) : ℚ) : ℝ) < mc.1 then
          some (Real.sqrt ((distSq p (closestOnSeg e.1 e.2 p) : ℚ) : ℝ),
            closestOnSeg e.1 e.2 p)
        else some mc)
    none

structure Obstacle where
  pos : ℚ × ℚ
  blob : List (ℚ × ℚ)

/-- `repulse(pos)` (lines 2344-2383).  The returned distance is `Option ℝ`
with `none` standing for the JavaScript `Infinity` of the empty-blob and
null-closest early returns; `Vec.random()` is modelled by the oracle
angle `randAngle` (a uniformly random unit vector is
`(cos a, sin a)`). -/
noncomputable def repulse (o : Obstacle) (p : ℚ × ℚ) (randAngle : ℝ) :
    (ℝ × ℝ) × Option ℝ :=
  if o.blob = [] then ((0, 0), none)
  else
    match scanEdges p (edges o.blob) with
    | none => ((0, 0), none)
    | some mc =>
      if magR (((p.1 - mc.2.1 : ℚ) : ℝ), ((p.2 - mc.2.2 : ℚ) : ℝ)) < 1 / 10 then
        if magR (((p.1 - o.pos.1 : ℚ) : ℝ), ((p.2 - o.pos.2 : ℚ) : ℝ)) > 1 / 10 then
          (normalizeR (((p.1 - o.pos.1 : ℚ) : ℝ), ((p.2 - o.pos.2 : ℚ) : ℝ)), some 0)
        else ((Real.cos randAngle, Real.sin randAngle), some 0)
      else
        (normalizeR (((p.1 - mc.2.1 : ℚ) : ℝ), ((p.2 - mc.2.2 : ℚ) : ℝ)), some mc.1)

theorem magR_cos_sin (a : ℝ) : magR (Real.cos a, Real.sin a) = 1 := by
  unfold magR
  show Real.sqrt (Real.cos a ^ 2 + Real.sin a ^ 2) = 1
  rw [Real.cos_sq_add_sin_sq, Real.sqrt_one]

/-- The scan of a nonempty edge list always produces a closest point with
a non-negative distance. -/
theorem scanEdges_some (p : ℚ × ℚ) (es : List ((ℚ × ℚ) × (ℚ × ℚ)))
    (hne : es ≠ []) :
    ∃ mc : ℝ × (ℚ × ℚ), scanEdges p es = some mc ∧ 0 ≤ mc.1 := by
  have hQ : ∀ (l : List ((ℚ × ℚ) × (ℚ × ℚ))) (a : Option (ℝ × (ℚ × ℚ))),
      (∃ mc, a = some mc ∧ 0 ≤ mc.1) →
      ∃ mc, (l.foldl
        (fun acc e =>
          match acc with
          | none =>
            some (Real.sqrt ((distSq p (closestOnSeg e.1 e.2 p) : ℚ) : ℝ),
              closestOnSeg e.1 e.2 p)
          | some mc =>
            if Real.sqrt ((distSq p (closestOnSeg e.1 e.2 p) : ℚ) : ℝ) < mc.1 then
              some (Real.sqrt ((distSq p (closestOnSeg e.1 e.2 p) : ℚ) : ℝ),
                closestOnSeg e.1 e.2 p)
            else some mc) a) = some mc ∧ 0 ≤ mc.1 := by
    intro l
    induction l with
    | nil => intro a ha; exact ha
    | cons e l ih =>
      intro a ha
      obtain ⟨mc, hmc, h0⟩ := ha
      apply ih
      rw [hmc]
      simp only
      split_ifs with h
      · exact ⟨_, rfl, Real.sqrt_nonneg _⟩
      · exact ⟨mc, rfl, h0⟩
  match es, hne with
  | e :: tl, _ =>
    unfold scanEdges
    rw [List.foldl_cons]
    exact hQ tl _ ⟨_, rfl, Real.sqrt_nonneg _⟩

/-- C9: for a valid polygon (at least three vertices, nondegenerate
edges), `repulse` always returns a unit direction vector and a finite
non-negative distance, at every query position including the centroid
and the vertices — never a zero or undefined direction. -/
theorem repulse_unit_and_nonneg (o : Obstacle) (p : ℚ × ℚ) (randAngle : ℝ)
    (h3 : 3 ≤ o.blob.length)
    (_hnd : ∀ e ∈ edges o.blob, e.1 ≠ e.2) :
    ∃ d : ℝ, (repulse o p randAngle).2 = some d ∧ 0 ≤ d ∧
      magR (repulse o p randAngle).1 = 1 := by
  have hne : o.blob ≠ [] := by
    intro h
    rw [h] at h3
    simp at h3
  have hedges : edges o.blob ≠ [] := by
    unfold edges
    intro h
    rw [List.map_eq_nil_iff, List.range_eq_nil] at h
    omega
  obtain ⟨mc, hsc, hm⟩ := scanEdges_some p (edges o.blob) hedges
  unfold repulse
  rw [if_neg hne, hsc]
  simp only
  split_ifs with h1 h2
  · exact ⟨0, rfl, le_refl 0, magR_normalizeR _ (lt_trans (by norm_num) h2)⟩
  · exact ⟨0, rfl, le_refl 0, magR_cos_sin randAngle⟩
  · exact ⟨mc.1, rfl, hm,
      magR_normalizeR _ (lt_of_lt_of_le (by norm_num) (not_lt.mp h1))⟩

/-- C9 witness: the guarantee holds concretely for a triangle queried at
an interior point. -/
theorem repulse_unit_and_nonneg_witness :
    (3 ≤ (Obstacle.mk (1, 1) [(0, 0), (4, 0), (0, 4)]).blob.length ∧
     ∀ e ∈ edges (Obstacle.mk (1, 1) [(0, 0), (4, 0), (0, 4)]).blob, e.1 ≠ e.2) ∧
    ∃ d : ℝ, (repulse (Obstacle.mk (1, 1) [(0, 0), (4, 0), (0, 4)]) (1, 1) 0).2 = some d ∧
      0 ≤ d ∧ magR (repulse (Obstacle.mk (1, 1) [(0, 0), (4, 0), (0, 4)]) (1, 1) 0).1 = 1 := by
  have h3 : 3 ≤ (Obstacle.mk (1, 1) [(0, 0), (4, 0), (0, 4)]).blob.length := by
    simp
  have hnd : ∀ e ∈ edges (Obstacle.mk (1, 1) [(0, 0), (4, 0), (0, 4)]).blob,
      e.1 ≠ e.2 := by
    intro e he
    simp [edges, List.range_succ] at he
    rcases he with h | h | h <;> rw [h] <;> simp [Prod.ext_iff]
  exact ⟨⟨h3, hnd⟩,
    repulse_unit_and_nonneg (Obstacle.mk (1, 1) [(0, 0), (4, 0), (0, 4)]) (1, 1) 0 h3 hnd⟩

end VibeAnts
